import Mathlib

/-!
Verification of the meet-bot webhook bridge (`main.py`) against its
natural-language specification.  The Python module is shallowly embedded:
the argument parser, title resolver, auth gate, provider adapter and the
`/meet` request handler become executable Lean functions; the remote
Google Calendar call is modelled by an oracle parameter, and wall-clock
readings become explicit numeric arguments.
-/

namespace MeetBot

/-- Result of `parse_slash_command_args` (the `args` dict): optional title,
duration in minutes (default 60) and the quick-meeting flag. -/
structure ParsedArgs where
  title : Option String
  duration : Nat
  quick : Bool
  deriving DecidableEq, Repr

/-- ASCII whitespace stripped by Python `str.strip()`. -/
def pyIsSpace (c : Char) : Bool :=
  c = ' ' || c = '\t' || c = '\n' || c = '\r' || c = '\x0b' || c = '\x0c'

/-- Embedding of Python `str.strip()`: drop whitespace from both ends. -/
def pyStrip (s : String) : String :=
  ⟨((s.data.dropWhile pyIsSpace).reverse.dropWhile pyIsSpace).reverse⟩

/-- Embedding of Python `str.lower()` on ASCII text. -/
def pyLower (s : String) : String :=
  ⟨s.data.map Char.toLower⟩

/-- Characters accepted by the regex character class made of the double and
the single quote (the class `["\x27]` of the title regex). -/
def isQuote (c : Char) : Bool := c = '"' || c = '\x27'

/-- Attempt of the regex `title=["\x27]([^"\x27]*)["\x27]` at the head of the
character list: the literal `title=`, one quote, then the maximal run of
non-quote characters, which must be followed by a quote (of either kind).
Returns the captured group. -/
def matchTitleAt : List Char → Option (List Char)
  | 't' :: 'i' :: 't' :: 'l' :: 'e' :: '=' :: q :: rest =>
    if isQuote q then
      match rest.dropWhile (fun c => !isQuote c) with
      | _ :: _ => some (rest.takeWhile (fun c => !isQuote c))
      | [] => none
    else none
  | _ => none

/-- Leftmost match of the title regex (`re.search` semantics): try every
start position from the left, return the first captured group. -/
def titleSearchAux : List Char → Option (List Char)
  | [] => none
  | c :: rest =>
    match matchTitleAt (c :: rest) with
    | some content => some content
    | none => titleSearchAux rest

/-- Attempt of the regex `duration=(\d+)` at the head of the list: the
literal `duration=` then a maximal nonempty digit run.  Returns the digit
run together with the remainder after the match. -/
def matchDurationAt : List Char → Option (List Char × List Char)
  | 'd' :: 'u' :: 'r' :: 'a' :: 't' :: 'i' :: 'o' :: 'n' :: '=' :: rest =>
    match rest.takeWhile Char.isDigit with
    | [] => none
    | d :: ds => some (d :: ds, rest.dropWhile Char.isDigit)
  | _ => none

/-- Leftmost match of the duration regex (`re.search` semantics). -/
def durationSearchAux : List Char → Option (List Char)
  | [] => none
  | c :: rest =>
    match matchDurationAt (c :: rest) with
    | some (ds, _) => some ds
    | none => durationSearchAux rest

/-- Fuelled worker for `durationSub`; the fuel `l.length` is enough because
every step consumes at least one character. -/
def durationSubFuel : Nat → List Char → List Char
  | 0, l => l
  | _ + 1, [] => []
  | fuel + 1, c :: rest =>
    match matchDurationAt (c :: rest) with
    | some (_, after) => durationSubFuel fuel after
    | none => c :: durationSubFuel fuel rest

/-- Embedding of `re.sub(r'duration=\d+', '', text)`: delete every
non-overlapping leftmost match of the duration regex. -/
def durationSub (l : List Char) : List Char := durationSubFuel l.length l

/-- Value of Python `int` on a nonempty decimal digit string. -/
def digitsToNat (ds : List Char) : Nat :=
  ds.foldl (fun n c => 10 * n + (c.toNat - '0'.toNat)) 0

/-- Embedding of `parse_slash_command_args` from `main.py`:
empty text gives the defaults; the exact word `quick` (trimmed,
case-insensitive) short-circuits; otherwise the title and duration regexes
are searched, and if the title is still falsy and no duration matched, the
duration-stripped trimmed text becomes the title (free-text fallback). -/
def parse_slash_command_args (text : String) : ParsedArgs :=
  if pyStrip text = "" then ⟨none, 60, false⟩
  else if pyLower (pyStrip text) = "quick" then ⟨some "Quick Meeting", 30, true⟩
  else
    let titleMatch := titleSearchAux text.data
    let durationMatch := durationSearchAux text.data
    let title0 : Option String := titleMatch.map fun cs => ⟨cs⟩
    let duration : Nat :=
      match durationMatch with
      | some ds => digitsToNat ds
      | none => 60
    let title : Option String :=
      if (title0 = none ∨ title0 = some "") ∧ pyStrip text ≠ "" ∧ durationMatch = none then
        let cleanText := pyStrip (String.mk (durationSub text.data))
        if cleanText ≠ "" then some cleanText else title0
      else title0
    ⟨title, duration, false⟩

/-- Embedding of the inline title-default block of `handle_meet_command`
(the Title Resolver of the spec): a falsy parsed title (absent or empty) is
replaced by `"{channel} Meeting"` when the channel name is truthy and not
the literal `directmessage`, else by `"Meeting by {user}"`. -/
def resolve_title (title : Option String) (channel_name user_name : String) : String :=
  if title = none ∨ title = some "" then
    if channel_name ≠ "" ∧ channel_name ≠ "directmessage" then
      channel_name ++ " Meeting"
    else
      "Meeting by " ++ user_name
  else
    title.getD ""

/-- Embedding of `verify_mattermost_token`: a falsy configured token
(unset environment variable, modelled `none`, or the empty string) accepts
everything; otherwise exact equality with the presented form field (which
is `none` when the field is missing, and then never equal). -/
def verify_mattermost_token (expected : Option String) (token : Option String) : Bool :=
  if expected = none ∨ expected = some "" then true
  else token == expected

/-- Start and end timestamps (seconds) built by `create_instant_meet`:
`start = now`, `end = start + timedelta(minutes=5)`. -/
def create_instant_meet_times (now : Nat) : Nat × Nat :=
  (now, now + 5 * 60)

/-- Start and end timestamps (seconds) built by `create_scheduled_meet`:
`start = now`, `end = start + timedelta(minutes=duration_minutes)`. -/
def create_scheduled_meet_times (now : Nat) (duration_minutes : Nat) : Nat × Nat :=
  (now, now + duration_minutes * 60)

/-- Embedding of the idempotency request id
`f'meet-\x7bint(start_time.timestamp())\x7d-\x7bint(time.time() * 1000) % 10000\x7d'`:
a function of the start-time whole seconds and the wall-clock millisecond
reading. -/
def request_id (startSec : Nat) (nowMs : Nat) : String :=
  "meet-" ++ toString startSec ++ "-" ++ toString (nowMs % 10000)

/-- One conference entry point of the created calendar event. -/
structure EntryPoint where
  entryPointType : Option String
  uri : Option String
  deriving DecidableEq

/-- The fields of the provider's created-event response that the adapter
inspects. -/
structure CreatedEvent where
  entryPoints : List EntryPoint
  hangoutLink : Option String
  deriving DecidableEq

/-- Embedding of the link-extraction loop of
`_create_calendar_event_with_meet`: the first entry point typed `video`
yields its `uri` field (even when that field is absent); with no
video-typed entry point the event's `hangoutLink` is the fallback. -/
def extract_meet_url (ev : CreatedEvent) : Option String :=
  match ev.entryPoints.find? (fun p => p.entryPointType == some "video") with
  | some p => p.uri
  | none => ev.hangoutLink

/-- Outcome of the remote `events().insert(...).execute()` call:
an `HttpError` with a status, any other raised exception, or a created
event. -/
inductive ApiOutcome where
  | httpError (status : Nat)
  | exn (msg : String)
  | ok (event : CreatedEvent)
  deriving DecidableEq

/-- Embedding of `_create_calendar_event_with_meet` as a function of the
remote outcome: `HttpError` and any other exception are caught and give
`None`; a created event gives whatever `extract_meet_url` finds. -/
def create_calendar_event_with_meet (outcome : ApiOutcome) : Option String :=
  match outcome with
  | ApiOutcome.httpError _ => none
  | ApiOutcome.exn _ => none
  | ApiOutcome.ok ev => extract_meet_url ev

/-- Embedding of `create_instant_meet`: delegates to the event creator
inside its own try/except returning `None`. -/
def create_instant_meet (outcome : ApiOutcome) : Option String :=
  create_calendar_event_with_meet outcome

/-- Embedding of `create_scheduled_meet`: delegates to the event creator
inside its own try/except returning `None`. -/
def create_scheduled_meet (outcome : ApiOutcome) : Option String :=
  create_calendar_event_with_meet outcome

/-- Body of a Flask `jsonify` response: either the bare `text` object of the
validation errors, or a business object with `response_type` and `text`. -/
inductive Body where
  | plain (text : String)
  | business (rtype : String) (text : String)
  deriving DecidableEq

/-- An HTTP response of the handler: a JSON body and a status code
(`jsonify` alone means 200). -/
structure Resp where
  body : Body
  status : Nat
  deriving DecidableEq

/-- The form fields of the inbound POST that the handler reads; a missing
field is `none`. -/
structure Form where
  token : Option String
  text : Option String
  user_name : Option String
  channel_name : Option String

/-- The provider call the handler makes: instant for quick meetings, else
scheduled with the resolved duration. -/
inductive MeetCall where
  | instant (title : String)
  | scheduled (title : String) (duration : Nat)
  deriving DecidableEq

/-- Content type required by the handler. -/
def formContentType : String := "application/x-www-form-urlencoded"

/-- Ephemeral text returned when the provider adapter failed to
initialize. -/
def serviceUnavailableText : String :=
  "❌ Google Meet service is not available. Please check the server configuration."

/-- Ephemeral text returned when the adapter produced no URL. -/
def failureText : String :=
  "❌ Failed to create Google Meet link. Please check the logs or contact your administrator."

/-- Prefix of the top-level exception handler's ephemeral text. -/
def errorPrefixText : String := "❌ An error occurred: "

/-- Success message text of the handler, built exactly as the sequential
string concatenation of `handle_meet_command`: header, meeting line, link
line, a duration line only for non-quick meetings, and the creator line. -/
def successText (title url : String) (duration : Nat) (quick : Bool) (user_name : String) : String :=
  "🎥 **Google Meet Created**\n" ++
  ("**Meeting:** " ++ title ++ "\n") ++
  ("**Link:** " ++ url ++ "\n") ++
  (if quick then "" else "**Duration:** " ++ toString duration ++ " minutes\n") ++
  ("**Created by:** @" ++ user_name)

/-- The same success message as the list of the concatenated pieces, in
order; `successText` is its left fold. -/
def successSegments (title url : String) (duration : Nat) (quick : Bool) (user_name : String) :
    List String :=
  ["🎥 **Google Meet Created**\n",
   "**Meeting:** " ++ title ++ "\n",
   "**Link:** " ++ url ++ "\n"] ++
  (if quick then [] else ["**Duration:** " ++ toString duration ++ " minutes\n"]) ++
  ["**Created by:** @" ++ user_name]

/-- Embedding of the final respond block of `handle_meet_command` (the
`if meet_url: ... else: ...` of lines 338-359): a URL gives the in-channel
success message, no URL gives the ephemeral failure message. -/
def respond_with_result (title : String) (duration : Nat) (quick : Bool)
    (userName : String) : Option String → Resp
  | some url => ⟨Body.business "in_channel" (successText title url duration quick userName), 200⟩
  | none => ⟨Body.business "ephemeral" failureText, 200⟩

/-- Embedding of the `/meet` handler `handle_meet_command`.  `exc` models an
exception escaping the `try` body (caught by the top-level handler);
`serviceAvailable` models `meet_service is not None`; `svc` is the oracle
for the adapter call.  The branch order is that of the source: content
type, token, service availability, then parse, resolve, call, respond. -/
def handle_meet_command (expectedToken : Option String) (exc : Option String)
    (contentType : String) (form : Form) (serviceAvailable : Bool)
    (svc : MeetCall → Option String) : Resp :=
  match exc with
  | some msg => ⟨Body.business "ephemeral" (errorPrefixText ++ msg), 500⟩
  | none =>
    if contentType ≠ formContentType then ⟨Body.plain "Invalid request format", 400⟩
    else if ¬ verify_mattermost_token expectedToken form.token then
      ⟨Body.plain "Unauthorized", 401⟩
    else if ¬ serviceAvailable then ⟨Body.business "ephemeral" serviceUnavailableText, 200⟩
    else
      let commandText := pyStrip (form.text.getD "")
      let args := parse_slash_command_args commandText
      let userName := form.user_name.getD "Unknown User"
      let channelName := form.channel_name.getD "Direct Message"
      let title := resolve_title args.title channelName userName
      let meetUrl :=
        if args.quick then svc (MeetCall.instant title)
        else svc (MeetCall.scheduled title args.duration)
      respond_with_result title args.duration args.quick userName meetUrl

/-- Static help text of the separate `/meet-help` route (the Python
triple-quoted string of `handle_help_command`). -/
def helpText : String :=
  "\n🎥 **Google Meet Bot Help**\n\n**Commands:**\n• `/meet` - Create a meeting for this channel/conversation\n• `/meet quick` - Create a 30-minute quick meeting  \n• `/meet title=\"Meeting Name\"` - Create a meeting with custom title\n• `/meet title=\"Weekly Standup\" duration=90` - Create a 90-minute meeting\n• `/meet-help` - Show this help message\n\n**Examples:**\n• `/meet` - Creates meeting named after current channel\n• `/meet title=\"Daily Standup\"` - Creates \"Daily Standup\" meeting (60 min)\n• `/meet title=\"Client Call\" duration=30` - Creates 30-minute \"Client Call\"\n• `/meet quick` - Creates instant 30-minute meeting\n\n**Notes:**\n• All meetings are created as Google Calendar events with Meet links\n• Meeting links are shared in the channel where the command was used\n• Duration is in minutes (default: 60 minutes for regular, 30 for quick)\n• Anyone with the link can join the meeting\n"

/-- Embedding of the `/meet-help` route `handle_help_command`: it reads
nothing from the request and unconditionally returns the static help text
ephemerally. -/
def handle_help_command : Resp :=
  ⟨Body.business "ephemeral" helpText, 200⟩

/-- Dropping while a predicate holds ignores a leading block on which the
predicate is everywhere true. -/
lemma dropWhile_append_of_forall {α : Type} {p : α → Bool} (s l : List α)
    (h : ∀ c ∈ s, p c = true) : (s ++ l).dropWhile p = l.dropWhile p := by
  induction s with
  | nil => rfl
  | cons a s ih =>
    simp only [List.cons_append, List.dropWhile_cons, h a (by simp)]
    exact ih (fun c hc => h c (by simp [hc]))

/-- Taking while a predicate holds keeps a leading block on which the
predicate is everywhere true. -/
lemma takeWhile_append_of_forall {α : Type} {p : α → Bool} (s l : List α)
    (h : ∀ c ∈ s, p c = true) : (s ++ l).takeWhile p = s ++ l.takeWhile p := by
  induction s with
  | nil => rfl
  | cons a s ih =>
    simp only [List.cons_append, List.takeWhile_cons, h a (by simp)]
    exact congrArg (a :: ·) (ih (fun c hc => h c (by simp [hc])))

/-- When the duration regex matches nowhere in the text, the substitution
that deletes its matches is the identity. -/
lemma durationSub_no_match : ∀ (fuel : Nat) (l : List Char),
    durationSearchAux l = none → durationSubFuel fuel l = l := by
  intro fuel
  induction fuel with
  | zero => intro l _; rfl
  | succ fuel ih =>
    intro l hl
    cases l with
    | nil => rfl
    | cons c rest =>
      unfold durationSearchAux at hl
      unfold durationSubFuel
      cases hm : matchDurationAt (c :: rest) with
      | some v =>
        rw [hm] at hl
        simp at hl
      | none =>
        rw [hm] at hl
        exact congrArg (c :: ·) (ih rest hl)

/-- C3 counterexample: the parser accepts `duration=0`, and for that value
`create_scheduled_meet` sets the end timestamp equal to the start
timestamp, so the constructed event does not satisfy `endTime > startTime`
in all cases. -/
theorem c3_counterexample :
    (parse_slash_command_args "duration=0").duration = 0 ∧
    ¬ (create_scheduled_meet_times 0 ((parse_slash_command_args "duration=0").duration)).1 <
      (create_scheduled_meet_times 0 ((parse_slash_command_args "duration=0").duration)).2 :=
  ⟨by decide, by decide⟩

/-- C3 amended: the constructed event always satisfies
`endTime ≥ startTime`; the inequality is strict for every scheduled
duration of at least one minute, and always strict on the instant
(quick) path, which uses a fixed 5-minute duration. -/
theorem c3_end_after_start :
    (∀ now d : Nat,
      (create_scheduled_meet_times now d).1 ≤ (create_scheduled_meet_times now d).2) ∧
    (∀ now d : Nat, 1 ≤ d →
      (create_scheduled_meet_times now d).1 < (create_scheduled_meet_times now d).2) ∧
    (∀ now : Nat, (create_instant_meet_times now).1 < (create_instant_meet_times now).2) := by
  refine ⟨fun now d => Nat.le_add_right _ _, fun now d hd => ?_, fun now => ?_⟩
  · simp only [create_scheduled_meet_times]
    omega
  · simp only [create_instant_meet_times]
    omega

/-- Witness for the amended C3 at `now = 0`, `d = 1`. -/
theorem c3_end_after_start_witness :
    (create_scheduled_meet_times 0 1).1 < (create_scheduled_meet_times 0 1).2 :=
  c3_end_after_start.2.1 0 1 (by decide)

/-- C4 counterexample: two distinct wall-clock millisecond readings (0 and
10000, i.e. ten seconds apart) with the same start-time second produce the
same idempotency request id, so the token is not unique per call. -/
theorem c4_counterexample :
    request_id 0 0 = request_id 0 10000 ∧ ((0, 0) : Nat × Nat) ≠ (0, 10000) :=
  ⟨by decide, by decide⟩

/-- C4 amended: the request id is a function of the start-time second and
the wall-clock millisecond reading modulo 10000 only, so any two calls
whose readings agree on those two values collide; uniqueness per call is
not guaranteed. -/
theorem c4_request_id_collision :
    ∀ (s m m2 : Nat), m % 10000 = m2 % 10000 → request_id s m = request_id s m2 := by
  intro s m m2 h
  simp only [request_id, h]

/-- Witness for the amended C4 at `s = 7`, `m = 123`, `m2 = 10123`. -/
theorem c4_request_id_collision_witness :
    request_id 7 123 = request_id 7 10123 :=
  c4_request_id_collision 7 123 10123 (by decide)

/-- C5: a truthy parsed title is used unchanged; otherwise a truthy channel
name different from the sentinel `directmessage` yields
`"{channel} Meeting"`, and an empty or sentinel channel name yields
`"Meeting by {user}"`; in particular the two example resolutions of the
spec hold. -/
theorem c5_title_resolution :
    (∀ (s c u : String), s ≠ "" → resolve_title (some s) c u = s) ∧
    (∀ (t : Option String) (c u : String), (t = none ∨ t = some "") →
      c ≠ "" → c ≠ "directmessage" → resolve_title t c u = c ++ " Meeting") ∧
    (∀ (t : Option String) (c u : String), (t = none ∨ t = some "") →
      (c = "" ∨ c = "directmessage") → resolve_title t c u = "Meeting by " ++ u) ∧
    resolve_title none "eng-standup" "alice" = "eng-standup Meeting" ∧
    resolve_title none "directmessage" "alice" = "Meeting by alice" := by
  refine ⟨fun s c u hs => ?_, fun t c u ht hc1 hc2 => ?_, fun t c u ht hc => ?_, by decide, by decide⟩
  · simp [resolve_title, hs]
  · rcases ht with rfl | rfl <;> simp [resolve_title, hc1, hc2]
  · rcases ht with rfl | rfl <;> rcases hc with rfl | rfl <;> simp [resolve_title]

/-- Witness for C5: a set nonempty title is kept; an empty-string title is
treated as unset and resolved from the channel. -/
theorem c5_title_resolution_witness :
    resolve_title (some "Standup") "eng" "alice" = "Standup" ∧
    resolve_title (some "") "eng" "alice" = "eng Meeting" :=
  ⟨c5_title_resolution.1 "Standup" "eng" "alice" (by decide),
   c5_title_resolution.2.1 (some "") "eng" "alice" (Or.inr rfl) (by decide) (by decide)⟩

/-- C7: the adapter entry points `create_instant_meet` and
`create_scheduled_meet` are total functions of the remote outcome (they
never raise), and every failure kind — an HTTP error of any status
(authorization 403, not-found 404, ...), any other exception (network
errors), or a successful response carrying no meeting link — yields the
same result `none`, indistinguishable to the caller. -/
theorem c7_failures_fold_to_none :
    ∀ (ev : CreatedEvent), extract_meet_url ev = none →
    ∀ (status : Nat) (msg : String),
      create_instant_meet (ApiOutcome.httpError status) = none ∧
      create_instant_meet (ApiOutcome.exn msg) = none ∧
      create_instant_meet (ApiOutcome.ok ev) = none ∧
      create_scheduled_meet (ApiOutcome.httpError status) = none ∧
      create_scheduled_meet (ApiOutcome.exn msg) = none ∧
      create_scheduled_meet (ApiOutcome.ok ev) = none := by
  intro ev hev status msg
  simp [create_instant_meet, create_scheduled_meet, create_calendar_event_with_meet, hev]

/-- Witness for C7 at a successful response with no entry points and no
hangout link, status 403, and a network-error message. -/
theorem c7_failures_fold_to_none_witness :
    create_instant_meet (ApiOutcome.httpError 403) = none ∧
    create_scheduled_meet (ApiOutcome.ok ⟨[], none⟩) = none :=
  ⟨(c7_failures_fold_to_none ⟨[], none⟩ rfl 403 "network error").1,
   (c7_failures_fold_to_none ⟨[], none⟩ rfl 403 "network error").2.2.2.2.2⟩

/-- C9: with no configured token every request is accepted; with a
configured nonempty token, verification succeeds exactly on the identical
presented token (the three spec examples hold); and a rejected request
gets the 401 Unauthorized response whatever the command text, service
availability and provider oracle are — so before any parsing or provider
call has taken place. -/
theorem c9_auth_gate :
    (∀ t : Option String, verify_mattermost_token none t = true) ∧
    (∀ e : String, e ≠ "" → ∀ t : Option String,
      (verify_mattermost_token (some e) t = true ↔ t = some e)) ∧
    verify_mattermost_token (some "abc") (some "abc") = true ∧
    verify_mattermost_token (some "abc") (some "xyz") = false ∧
    verify_mattermost_token (some "abc") (some "") = false ∧
    (∀ (expected : Option String) (form : Form) (avail : Bool)
      (svc : MeetCall → Option String),
      verify_mattermost_token expected form.token = false →
      handle_meet_command expected none formContentType form avail svc =
        ⟨Body.plain "Unauthorized", 401⟩) := by
  refine ⟨fun t => rfl, fun e he t => ?_, by decide, by decide, by decide,
    fun expected form avail svc hv => ?_⟩
  · unfold verify_mattermost_token
    rw [if_neg (by simp [he])]
    exact beq_iff_eq
  · simp only [handle_meet_command, hv]
    rw [if_neg (fun hne => hne rfl), if_pos Bool.false_ne_true]

/-- Witness for C9: the configured token `abc` rejects `xyz` and the
handler answers 401 Unauthorized. -/
theorem c9_auth_gate_witness :
    (verify_mattermost_token (some "abc") (some "xyz") = true ↔
      (some "xyz" : Option String) = some "abc") ∧
    handle_meet_command (some "abc") none formContentType
      ⟨some "xyz", some "hello", some "alice", some "town"⟩ true (fun _ => none) =
      ⟨Body.plain "Unauthorized", 401⟩ :=
  ⟨c9_auth_gate.2.1 "abc" (by decide) (some "xyz"),
   c9_auth_gate.2.2.2.2.2 (some "abc") ⟨some "xyz", some "hello", some "alice", some "town"⟩
     true (fun _ => none) (by decide)⟩

/-- Responding to an adapter result always carries HTTP status 200,
whether a URL was produced or not. -/
lemma respond_with_result_status (title : String) (duration : Nat) (quick : Bool)
    (userName : String) (r : Option String) :
    (respond_with_result title duration quick userName r).status = 200 := by
  cases r <;> rfl

/-- Exhaustive shape of the handler's responses when no exception escapes:
the 400 content-type rejection, the 401 token rejection, or a status-200
response. -/
lemma handle_none_cases (expected : Option String) (ct : String) (form : Form)
    (avail : Bool) (svc : MeetCall → Option String) :
    handle_meet_command expected none ct form avail svc =
      ⟨Body.plain "Invalid request format", 400⟩ ∨
    handle_meet_command expected none ct form avail svc = ⟨Body.plain "Unauthorized", 401⟩ ∨
    (handle_meet_command expected none ct form avail svc).status = 200 := by
  unfold handle_meet_command
  by_cases h1 : ct ≠ formContentType
  · rw [if_pos h1]
    exact Or.inl rfl
  · rw [if_neg h1]
    by_cases h2 : ¬ verify_mattermost_token expected form.token = true
    · rw [if_pos h2]
      exact Or.inr (Or.inl rfl)
    · rw [if_neg h2]
      by_cases h3 : ¬ avail = true
      · rw [if_pos h3]
        exact Or.inr (Or.inr rfl)
      · rw [if_neg h3]
        exact Or.inr (Or.inr (respond_with_result_status _ _ _ _ _))

/-- C6: with non-blank, non-quick text, when neither regex matches the
whole stripped text becomes the title; when only the duration regex
matches, the title stays unset and the matched digits give the duration;
in particular `parse("duration=45")` gives `{title: None, duration: 45,
quick: false}`. -/
theorem c6_fallback_and_duration :
    (∀ text : String, pyStrip text ≠ "" → pyLower (pyStrip text) ≠ "quick" →
      titleSearchAux text.data = none → durationSearchAux text.data = none →
      parse_slash_command_args text = ⟨some (pyStrip text), 60, false⟩) ∧
    (∀ (text : String) (ds : List Char), pyStrip text ≠ "" →
      pyLower (pyStrip text) ≠ "quick" →
      titleSearchAux text.data = none → durationSearchAux text.data = some ds →
      parse_slash_command_args text = ⟨none, digitsToNat ds, false⟩) ∧
    parse_slash_command_args "duration=45" = ⟨none, 45, false⟩ := by
  refine ⟨fun text h1 h2 ht hd => ?_, fun text ds h1 h2 ht hd => ?_, by decide⟩
  · have hsub : (String.mk (durationSub text.data)) = text := by
      unfold durationSub
      rw [durationSub_no_match text.data.length text.data hd]
    unfold parse_slash_command_args
    rw [if_neg h1, if_neg h2]
    simp only [ht, hd, hsub]
    rw [if_pos (by simp [h1]), if_pos h1]
  · unfold parse_slash_command_args
    rw [if_neg h1, if_neg h2]
    simp only [ht, hd]
    rw [if_neg (fun hcon => Option.noConfusion hcon.2.2)]
    rfl

/-- Witness for C6 at the free-text input `Client Call` and the
duration-only input `duration=45`. -/
theorem c6_fallback_and_duration_witness :
    parse_slash_command_args "Client Call" = ⟨some "Client Call", 60, false⟩ ∧
    parse_slash_command_args "duration=45" = ⟨none, 45, false⟩ := by
  constructor
  · have h := c6_fallback_and_duration.1 "Client Call" (by decide) (by decide)
      (by decide) (by decide)
    rw [h]
    decide
  · exact c6_fallback_and_duration.2.2

/-- C2 counterexample: on `title="a'b"` the claim predicts the title
`a'b` (contents matched inside the same quote type, allowed to contain the
other quote), but the parser stops the contents at the single quote and
closes the match there, yielding `a`; and on `title="abc'` the claim
predicts no title match at all (no matching closing double quote, hence
free-text fallback to the whole text), but the parser accepts the
mismatched closing quote and yields `abc`. -/
theorem c2_counterexample :
    (parse_slash_command_args "title=\"a\x27b\"").title = some "a" ∧
    some "a" ≠ some "a\x27b" ∧
    (parse_slash_command_args "title=\"abc\x27").title = some "abc" ∧
    some "abc" ≠ some "title=\"abc\x27" :=
  ⟨by decide, by decide, by decide, by decide⟩

/-- The first element surviving a dropWhile fails the predicate. -/
lemma dropWhile_head_false {α : Type} (p : α → Bool) :
    ∀ (l : List α) (a : α) (t : List α), l.dropWhile p = a :: t → p a = false := by
  intro l
  induction l with
  | nil => intro a t h; cases h
  | cons b l ih =>
    intro a t h
    rw [List.dropWhile_cons] at h
    by_cases hb : p b = true
    · rw [if_pos hb] at h
      exact ih a t h
    · rw [if_neg hb] at h
      cases h
      simpa using hb

/-- Characterization of one attempt of the title regex: it succeeds with
captured group `s` exactly when the list reads `title=`, an opening quote
of either kind, the run `s` containing neither quote character, and a
closing quote of either kind — not necessarily matching the opener. -/
lemma matchTitleAt_eq_some_iff (l s : List Char) :
    matchTitleAt l = some s ↔
      ∃ (q1 q2 : Char) (rest : List Char), isQuote q1 = true ∧ isQuote q2 = true ∧
        (∀ c ∈ s, isQuote c = false) ∧
        l = 't' :: 'i' :: 't' :: 'l' :: 'e' :: '=' :: q1 :: (s ++ q2 :: rest) := by
  constructor
  · intro h
    unfold matchTitleAt at h
    split at h
    · next q rest2 =>
      split at h
      · next hq =>
        split at h
        · next head tail heq =>
          injection h with hs2
          subst hs2
          refine ⟨q, head, tail, hq, ?_, ?_, ?_⟩
          · have hph := dropWhile_head_false (fun c => !isQuote c) rest2 head tail heq
            simpa using hph
          · intro c hc
            have hpc := List.mem_takeWhile_imp hc
            simpa using hpc
          · have hsplit : rest2.takeWhile (fun c => !isQuote c) ++
                rest2.dropWhile (fun c => !isQuote c) = rest2 :=
              List.takeWhile_append_dropWhile _ _
            rw [heq] at hsplit
            rw [hsplit]
        · exact Option.noConfusion h
      · exact Option.noConfusion h
    · exact Option.noConfusion h
  · rintro ⟨q1, q2, rest, hq1, hq2, hsfree, rfl⟩
    have hps : ∀ c ∈ s, (fun c => !isQuote c) c = true := fun c hc => by
      simp [hsfree c hc]
    have hdrop : (s ++ q2 :: rest).dropWhile (fun c => !isQuote c) = q2 :: rest := by
      rw [dropWhile_append_of_forall s _ hps]
      simp [List.dropWhile_cons, hq2]
    have htake : (s ++ q2 :: rest).takeWhile (fun c => !isQuote c) = s := by
      rw [takeWhile_append_of_forall s _ hps]
      simp [List.takeWhile_cons, hq2]
    show (if isQuote q1 = true then
        match (s ++ q2 :: rest).dropWhile (fun c => !isQuote c) with
        | _ :: _ => some ((s ++ q2 :: rest).takeWhile (fun c => !isQuote c))
        | [] => none
      else none) = some s
    rw [if_pos hq1, hdrop, htake]

/-- Characterization of the left-to-right search: it returns `s` exactly
when some position matches with group `s` and every earlier position fails
(`re.search` leftmost-match semantics). -/
lemma titleSearchAux_eq_some_iff : ∀ (l s : List Char),
    titleSearchAux l = some s ↔
      ∃ n : Nat, matchTitleAt (l.drop n) = some s ∧
        ∀ m < n, matchTitleAt (l.drop m) = none := by
  intro l
  induction l with
  | nil =>
    intro s
    constructor
    · intro h
      exact Option.noConfusion h
    · rintro ⟨n, hn, -⟩
      rw [List.drop_nil] at hn
      exact Option.noConfusion hn
  | cons c rest ih =>
    intro s
    constructor
    · intro h
      unfold titleSearchAux at h
      cases hm : matchTitleAt (c :: rest) with
      | some v =>
        rw [hm] at h
        injection h with hv
        subst hv
        exact ⟨0, hm, fun m hm0 => absurd hm0 (Nat.not_lt_zero m)⟩
      | none =>
        rw [hm] at h
        obtain ⟨n, hn, hlt⟩ := (ih s).1 h
        refine ⟨n + 1, by simpa [List.drop_succ_cons] using hn, fun m hmn => ?_⟩
        cases m with
        | zero => simpa using hm
        | succ m =>
          rw [List.drop_succ_cons]
          exact hlt m (Nat.lt_of_succ_lt_succ hmn)
    · rintro ⟨n, hn, hlt⟩
      unfold titleSearchAux
      cases n with
      | zero =>
        rw [List.drop_zero] at hn
        rw [hn]
      | succ n =>
        have h0 : matchTitleAt (c :: rest) = none := by
          simpa using hlt 0 (Nat.succ_pos n)
        rw [h0]
        refine (ih s).2 ⟨n, ?_, fun m hmn => ?_⟩
        · rw [List.drop_succ_cons] at hn
          exact hn
        · have := hlt (m + 1) (Nat.succ_lt_succ hmn)
          rw [List.drop_succ_cons] at this
          exact this

/-- C2 amended: a title-regex attempt succeeds at a position exactly when
the text there reads `title=`, an opening quote of either kind, a run of
characters containing neither quote character, and a closing quote of
either kind — the closing delimiter need not match the opener and the
contents can contain neither quote; the search takes the first such
position.  For non-blank, non-quick input, parse sets the title to the
first match's nonempty contents; an empty matched contents is falsy in
the code, so the title then becomes the whole stripped text when no
`duration=` match exists (free-text fallback) and stays the empty string
otherwise.  Concretely: `title="a'b"` gives `a`, the mismatched
`title="abc'` gives `abc`, `foo title="bar"` gives `bar`, `title=""`
gives `title=""`, and `title="" duration=30` gives the empty title. -/
theorem c2_title_regex :
    (∀ (l s : List Char), matchTitleAt l = some s ↔
      ∃ (q1 q2 : Char) (rest : List Char), isQuote q1 = true ∧ isQuote q2 = true ∧
        (∀ c ∈ s, isQuote c = false) ∧
        l = 't' :: 'i' :: 't' :: 'l' :: 'e' :: '=' :: q1 :: (s ++ q2 :: rest)) ∧
    (∀ (l s : List Char), titleSearchAux l = some s ↔
      ∃ n : Nat, matchTitleAt (l.drop n) = some s ∧
        ∀ m < n, matchTitleAt (l.drop m) = none) ∧
    (∀ (text : String) (s : List Char), pyStrip text ≠ "" →
      pyLower (pyStrip text) ≠ "quick" →
      titleSearchAux text.data = some s → s ≠ [] →
      (parse_slash_command_args text).title = some (String.mk s)) ∧
    (∀ (text : String) (ds : List Char), pyStrip text ≠ "" →
      pyLower (pyStrip text) ≠ "quick" →
      titleSearchAux text.data = some [] → durationSearchAux text.data = some ds →
      parse_slash_command_args text = ⟨some "", digitsToNat ds, false⟩) ∧
    (∀ (text : String), pyStrip text ≠ "" → pyLower (pyStrip text) ≠ "quick" →
      titleSearchAux text.data = some [] → durationSearchAux text.data = none →
      parse_slash_command_args text = ⟨some (pyStrip text), 60, false⟩) ∧
    parse_slash_command_args "foo title=\"bar\"" = ⟨some "bar", 60, false⟩ ∧
    parse_slash_command_args "title=\"a\x27b\"" = ⟨some "a", 60, false⟩ ∧
    parse_slash_command_args "title=\"abc\x27" = ⟨some "abc", 60, false⟩ ∧
    parse_slash_command_args "title=\"\"" = ⟨some "title=\"\"", 60, false⟩ ∧
    parse_slash_command_args "title=\"\" duration=30" = ⟨some "", 30, false⟩ := by
  refine ⟨matchTitleAt_eq_some_iff, titleSearchAux_eq_some_iff,
    fun text s h1 h2 hs hne => ?_, fun text ds h1 h2 hs hd => ?_,
    fun text h1 h2 hs hd => ?_, by decide, by decide, by decide, by decide, by decide⟩
  · unfold parse_slash_command_args
    rw [if_neg h1, if_neg h2]
    simp only [hs]
    have hcon : ¬ ((Option.map (fun cs => (⟨cs⟩ : String)) (some s) = none ∨
        Option.map (fun cs => (⟨cs⟩ : String)) (some s) = some "") ∧
        pyStrip text ≠ "" ∧ durationSearchAux text.data = none) := by
      rintro ⟨hor, -, -⟩
      rcases hor with hno | hemp
      · have hno2 : some (String.mk s) = none := hno
        exact Option.noConfusion hno2
      · have hemp2 : some (String.mk s) = some "" := hemp
        exact hne (congrArg String.data (Option.some.inj hemp2))
    rw [if_neg hcon]
    rfl
  · unfold parse_slash_command_args
    rw [if_neg h1, if_neg h2]
    simp only [hs, hd]
    rw [if_neg (fun hcon => Option.noConfusion hcon.2.2)]
    rfl
  · have hsub : (String.mk (durationSub text.data)) = text := by
      unfold durationSub
      rw [durationSub_no_match text.data.length text.data hd]
    unfold parse_slash_command_args
    rw [if_neg h1, if_neg h2]
    simp only [hs, hd, hsub]
    rw [if_pos (by exact ⟨Or.inr rfl, h1, trivial⟩), if_pos h1]

/-- Witness for the amended C2: the match characterization applied to a
double-quote opener with single-quote closer and contents `x`, and the
parse-level conclusions applied to `foo title="bar"` (match away from
position zero) and to `title="" duration=30` (empty matched contents). -/
theorem c2_title_regex_witness :
    matchTitleAt ('t' :: 'i' :: 't' :: 'l' :: 'e' :: '=' :: '"' :: (['x'] ++ '\x27' :: [])) =
      some ['x'] ∧
    (parse_slash_command_args "foo title=\"bar\"").title = some "bar" ∧
    parse_slash_command_args "title=\"\" duration=30" = ⟨some "", 30, false⟩ := by
  refine ⟨?_, ?_, ?_⟩
  · exact (c2_title_regex.1 _ ['x']).2 ⟨'"', '\x27', [], by decide, by decide, by decide, rfl⟩
  · exact c2_title_regex.2.2.1 "foo title=\"bar\"" (['b'] ++ ['a'] ++ ['r'])
      (by decide) (by decide) (by decide) (by decide)
  · exact c2_title_regex.2.2.2.1 "title=\"\" duration=30" (['3'] ++ ['0'])
      (by decide) (by decide) (by decide) (by decide)

/-- C1 counterexample: a request with text `help` that passes the content
type and token checks, with the provider adapter unavailable, gets the
service-unavailable response, not the static help message — the `/meet`
handler has no help branch and checks provider availability first. -/
theorem c1_counterexample :
    handle_meet_command none none formContentType
      ⟨none, some "help", some "alice", some "town-square"⟩ false (fun _ => none) =
      ⟨Body.business "ephemeral" serviceUnavailableText, 200⟩ ∧
    (⟨Body.business "ephemeral" serviceUnavailableText, 200⟩ : Resp) ≠
      ⟨Body.business "ephemeral" helpText, 200⟩ :=
  ⟨by decide, by decide⟩

/-- C1 amended: the `/meet` handler does not special-case the text `help`;
such a request follows the ordinary flow — the service-unavailable
response when the adapter failed to initialize, else a provider call for a
scheduled meeting titled `help` whose outcome is reported normally.  The
static help message is returned only by the separate `/meet-help` route,
unconditionally and with no token or content-type check. -/
theorem c1_no_help_shortcut (expected : Option String) (form : Form)
    (svc : MeetCall → Option String)
    (hv : verify_mattermost_token expected form.token = true)
    (htext : form.text = some "help") :
    handle_meet_command expected none formContentType form false svc =
      ⟨Body.business "ephemeral" serviceUnavailableText, 200⟩ ∧
    (svc (MeetCall.scheduled "help" 60) = none →
      handle_meet_command expected none formContentType form true svc =
        ⟨Body.business "ephemeral" failureText, 200⟩) ∧
    (∀ url, svc (MeetCall.scheduled "help" 60) = some url →
      handle_meet_command expected none formContentType form true svc =
        ⟨Body.business "in_channel"
          (successText "help" url 60 false (form.user_name.getD "Unknown User")), 200⟩) ∧
    handle_help_command = ⟨Body.business "ephemeral" helpText, 200⟩ := by
  have hfalse : handle_meet_command expected none formContentType form false svc =
      ⟨Body.business "ephemeral" serviceUnavailableText, 200⟩ := by
    simp only [handle_meet_command]
    rw [if_neg (fun hne => hne rfl), if_neg (by simp [hv]), if_pos Bool.false_ne_true]
  have htrue : handle_meet_command expected none formContentType form true svc =
      respond_with_result "help" 60 false (form.user_name.getD "Unknown User")
        (svc (MeetCall.scheduled "help" 60)) := by
    simp only [handle_meet_command, htext]
    rw [if_neg (fun hne => hne rfl), if_neg (by simp [hv]), if_neg (by simp)]
    rfl
  refine ⟨hfalse, fun hnone => ?_, fun url hurl => ?_, rfl⟩
  · rw [htrue, hnone]
    rfl
  · rw [htrue, hurl]
    rfl

/-- Witness for the amended C1 at a fully concrete request. -/
theorem c1_no_help_shortcut_witness :
    handle_meet_command none none formContentType ⟨none, some "help", some "alice", some "town"⟩
      false (fun _ => some "https://meet.google.com/abc-defg-hij") =
      ⟨Body.business "ephemeral" serviceUnavailableText, 200⟩ ∧
    handle_meet_command none none formContentType ⟨none, some "help", some "alice", some "town"⟩
      true (fun _ => some "https://meet.google.com/abc-defg-hij") =
      ⟨Body.business "in_channel"
        (successText "help" "https://meet.google.com/abc-defg-hij" 60 false "alice"), 200⟩ := by
  have h := c1_no_help_shortcut none ⟨none, some "help", some "alice", some "town"⟩
    (fun _ => some "https://meet.google.com/abc-defg-hij") (by decide) rfl
  exact ⟨h.1, h.2.2.1 "https://meet.google.com/abc-defg-hij" rfl⟩

/-- The success text decomposes around the title and the URL, and ends with
the creator tag. -/
lemma successText_decomp (t u : String) (d : Nat) (q : Bool) (usr : String) :
    (∃ p r : String, successText t u d q usr = p ++ t ++ r) ∧
    (∃ p r : String, successText t u d q usr = p ++ u ++ r) ∧
    (∃ p : String, successText t u d q usr = p ++ ("**Created by:** @" ++ usr)) := by
  refine ⟨⟨"🎥 **Google Meet Created**\n" ++ "**Meeting:** ",
      "\n" ++ ("**Link:** " ++ u ++ "\n") ++
        (if q then "" else "**Duration:** " ++ toString d ++ " minutes\n") ++
        ("**Created by:** @" ++ usr), ?_⟩,
    ⟨"🎥 **Google Meet Created**\n" ++ ("**Meeting:** " ++ t ++ "\n") ++ "**Link:** ",
      "\n" ++ (if q then "" else "**Duration:** " ++ toString d ++ " minutes\n") ++
        ("**Created by:** @" ++ usr), ?_⟩,
    ⟨"🎥 **Google Meet Created**\n" ++ ("**Meeting:** " ++ t ++ "\n") ++
        ("**Link:** " ++ u ++ "\n") ++
        (if q then "" else "**Duration:** " ++ toString d ++ " minutes\n"), ?_⟩⟩ <;>
  · apply String.ext
    simp only [successText, String.data_append, List.append_assoc]

/-- The success text is the left fold of its segment list. -/
lemma successText_eq_foldl (t u : String) (d : Nat) (q : Bool) (usr : String) :
    successText t u d q usr = (successSegments t u d q usr).foldl (· ++ ·) "" := by
  cases q
  · rfl
  · apply String.ext
    have hnil : ("" : String).data = [] := rfl
    simp only [successText, successSegments, List.foldl, String.data_append, hnil,
      List.append_assoc, List.append_nil, List.nil_append, List.cons_append, reduceIte]

/-- For a non-quick meeting the duration line is one of the message
segments. -/
lemma durationLine_mem_false (t u : String) (d : Nat) (usr : String) :
    ("**Duration:** " ++ toString d ++ " minutes\n") ∈ successSegments t u d false usr := by
  simp [successSegments]

/-- For a quick meeting no segment of the message is the duration line. -/
lemma durationLine_not_mem_true (t u : String) (d : Nat) (usr : String) :
    ("**Duration:** " ++ toString d ++ " minutes\n") ∉ successSegments t u d true usr := by
  intro h
  simp only [successSegments, reduceIte, List.append_nil, List.cons_append, List.nil_append,
    List.mem_cons, List.not_mem_nil, or_false] at h
  rcases h with h | h | h | h
  · have h2 : some '*' = some '🎥' := congrArg (fun s : String => s.data.get? 0) h
    exact absurd (Option.some.inj h2) (by decide)
  · have h2 : some 'D' = some 'M' := congrArg (fun s : String => s.data.get? 2) h
    exact absurd (Option.some.inj h2) (by decide)
  · have h2 : some 'D' = some 'L' := congrArg (fun s : String => s.data.get? 2) h
    exact absurd (Option.some.inj h2) (by decide)
  · have h2 : some 'D' = some 'C' := congrArg (fun s : String => s.data.get? 2) h
    exact absurd (Option.some.inj h2) (by decide)

/-- The duration line is a segment of the message exactly for non-quick
meetings. -/
lemma durationLine_mem_iff (t u : String) (d : Nat) (q : Bool) (usr : String) :
    (("**Duration:** " ++ toString d ++ " minutes\n") ∈ successSegments t u d q usr) ↔
      q = false := by
  cases q
  · exact iff_of_true (durationLine_mem_false t u d usr) rfl
  · exact iff_of_false (durationLine_not_mem_true t u d usr) (fun h => Bool.noConfusion h)

/-- C8: for a request that passes all checks, when the adapter call yields
no URL the handler answers the ephemeral failure message (so never
in-channel), and when it yields a URL the handler answers in-channel with
the success message, which contains the title, the URL and the requester
tag, and whose segments include the duration line exactly when the meeting
is not quick. -/
theorem c8_response_visibility (expected : Option String) (form : Form)
    (svc : MeetCall → Option String) (args : ParsedArgs)
    (userName channelName title : String) (call : MeetCall)
    (hv : verify_mattermost_token expected form.token = true)
    (hargs : args = parse_slash_command_args (pyStrip (form.text.getD "")))
    (huser : userName = form.user_name.getD "Unknown User")
    (hchan : channelName = form.channel_name.getD "Direct Message")
    (htitle : title = resolve_title args.title channelName userName)
    (hcall : call = if args.quick then MeetCall.instant title
        else MeetCall.scheduled title args.duration) :
    (svc call = none →
      handle_meet_command expected none formContentType form true svc =
        ⟨Body.business "ephemeral" failureText, 200⟩) ∧
    (∀ url, svc call = some url →
      handle_meet_command expected none formContentType form true svc =
        ⟨Body.business "in_channel"
          (successText title url args.duration args.quick userName), 200⟩ ∧
      (∃ p r : String, successText title url args.duration args.quick userName =
          p ++ title ++ r) ∧
      (∃ p r : String, successText title url args.duration args.quick userName =
          p ++ url ++ r) ∧
      (∃ p : String, successText title url args.duration args.quick userName =
          p ++ ("**Created by:** @" ++ userName)) ∧
      successText title url args.duration args.quick userName =
        (successSegments title url args.duration args.quick userName).foldl (· ++ ·) "" ∧
      (("**Duration:** " ++ toString args.duration ++ " minutes\n") ∈
          successSegments title url args.duration args.quick userName ↔
        args.quick = false)) := by
  subst hargs huser hchan htitle hcall
  set P := parse_slash_command_args (pyStrip (form.text.getD "")) with hP
  set U := form.user_name.getD "Unknown User" with hU
  set C := form.channel_name.getD "Direct Message" with hC
  set T := resolve_title P.title C U with hT
  have hstep : handle_meet_command expected none formContentType form true svc =
      respond_with_result T P.duration P.quick U
        (if P.quick then svc (MeetCall.instant T)
         else svc (MeetCall.scheduled T P.duration)) := by
    simp only [handle_meet_command]
    rw [if_neg (fun hne => hne rfl), if_neg (by simp [hv]), if_neg (by simp)]
  have hmeet : (if P.quick then svc (MeetCall.instant T)
      else svc (MeetCall.scheduled T P.duration)) =
      svc (if P.quick then MeetCall.instant T else MeetCall.scheduled T P.duration) :=
    (apply_ite svc _ _ _).symm
  constructor
  · intro hnone
    rw [hstep, hmeet, hnone]
    rfl
  · intro url hurl
    refine ⟨?_, (successText_decomp T url P.duration P.quick U).1,
      (successText_decomp T url P.duration P.quick U).2.1,
      (successText_decomp T url P.duration P.quick U).2.2,
      successText_eq_foldl T url P.duration P.quick U,
      durationLine_mem_iff T url P.duration P.quick U⟩
    rw [hstep, hmeet, hurl]
    rfl

/-- Witness for C8 at a concrete request with `duration=45` in channel
`town`: the failing adapter gives the ephemeral failure, a URL gives the
in-channel success message. -/
theorem c8_response_visibility_witness :
    handle_meet_command none none formContentType
      ⟨none, some "duration=45", some "alice", some "town"⟩ true (fun _ => none) =
      ⟨Body.business "ephemeral" failureText, 200⟩ ∧
    handle_meet_command none none formContentType
      ⟨none, some "duration=45", some "alice", some "town"⟩ true
      (fun _ => some "https://meet.google.com/xyz") =
      ⟨Body.business "in_channel"
        (successText "town Meeting" "https://meet.google.com/xyz" 45 false "alice"), 200⟩ := by
  constructor
  · exact (c8_response_visibility none ⟨none, some "duration=45", some "alice", some "town"⟩
      (fun _ => none) ⟨none, 45, false⟩ "alice" "town" "town Meeting"
      (MeetCall.scheduled "town Meeting" 45) (by decide) (by decide) rfl rfl (by decide)
      rfl).1 rfl
  · exact ((c8_response_visibility none ⟨none, some "duration=45", some "alice", some "town"⟩
      (fun _ => some "https://meet.google.com/xyz") ⟨none, 45, false⟩ "alice" "town"
      "town Meeting" (MeetCall.scheduled "town Meeting" 45) (by decide) (by decide) rfl rfl
      (by decide) rfl).2 "https://meet.google.com/xyz" rfl).1

/-- C10: an exception escaping the handler body yields the ephemeral error
body with the exception message interpolated and HTTP status 500; and
conversely every response of the handler that carries a `response_type`
(a business response) and a status other than 200 arises exactly that way. -/
theorem c10_exception_500 (expected : Option String) (ct : String) (form : Form)
    (avail : Bool) (svc : MeetCall → Option String) :
    (∀ msg, handle_meet_command expected (some msg) ct form avail svc =
      ⟨Body.business "ephemeral" (errorPrefixText ++ msg), 500⟩) ∧
    (∀ (exc : Option String) (rt tx : String) (st : Nat),
      handle_meet_command expected exc ct form avail svc = ⟨Body.business rt tx, st⟩ →
      st ≠ 200 →
      ∃ msg, exc = some msg ∧ rt = "ephemeral" ∧ tx = errorPrefixText ++ msg ∧ st = 500) := by
  constructor
  · intro msg
    rfl
  · intro exc rt tx st h hst
    cases exc with
    | some msg =>
      have h2 : (⟨Body.business "ephemeral" (errorPrefixText ++ msg), 500⟩ : Resp) =
          ⟨Body.business rt tx, st⟩ := h
      injection h2 with hb hs
      injection hb with hr htx
      exact ⟨msg, rfl, hr.symm, htx.symm, hs.symm⟩
    | none =>
      exfalso
      rcases handle_none_cases expected ct form avail svc with h0 | h0 | h0
      · rw [h] at h0
        injection h0 with hb _
        exact Body.noConfusion hb
      · rw [h] at h0
        injection h0 with hb _
        exact Body.noConfusion hb
      · rw [h] at h0
        exact hst h0

/-- Witness for C10: a concrete escaping exception message produces the 500
ephemeral error response. -/
theorem c10_exception_500_witness :
    handle_meet_command none (some "boom") formContentType ⟨none, none, none, none⟩ true
      (fun _ => none) = ⟨Body.business "ephemeral" (errorPrefixText ++ "boom"), 500⟩ :=
  (c10_exception_500 none formContentType ⟨none, none, none, none⟩ true (fun _ => none)).1 "boom"

end MeetBot
